import Mathlib

/-!
Verification of the pyjupiter Ultra API client pipeline.

The definitions below are a shallow embedding of the Python source:
  - `src/pyjupiter/clients/jupiter_client.py` (`_CoreJupiterClient`)
  - `src/pyjupiter/clients/ultra_api_client.py` (`UltraApiClient` and its async twin,
    whose `_handle_response` bodies are line-for-line identical)
  - `src/pyjupiter/clients/base_ultra_client.py` (`BaseUltraClient`)
  - `src/pyjupiter/exceptions.py` (error taxonomy)

Python dynamic values are embedded as the inductive `Py`; Python exceptions that the
pipeline can surface are embedded as `OpError` (the Jupiter taxonomy plus `pyError`
for raw, untyped Python exceptions that escape the library).  External collaborators
(solders, pydantic, ed25519) that are not part of this repository are modelled from
the spec where noted in doc comments.
-/

namespace PyJupiter

/-- A Python runtime value, as far as the client code inspects one: JSON-decoded
bodies, order-response fields, and transaction strings.  `pother` stands for any
other Python object (floats, response objects, ...) of which the code only ever
observes the type name and truthiness. -/
inductive Py where
  | pnone
  | pbool (b : Bool)
  | pint (n : Int)
  | pstr (s : String)
  | plist (xs : List Py)
  | pdict (kvs : List (String × Py))
  | pother (tyName : String) (truthy : Bool)

/-- Python truthiness (`bool(x)`), as used by `if not x:` checks in the source. -/
def Py.truthy : Py → Bool
  | .pnone => false
  | .pbool b => b
  | .pint n => decide (n ≠ 0)
  | .pstr s => decide (s ≠ "")
  | .plist xs => !xs.isEmpty
  | .pdict kvs => !kvs.isEmpty
  | .pother _ t => t

/-- Python `isinstance(x, dict)`. -/
def Py.isDict : Py → Bool
  | .pdict _ => true
  | _ => false

/-- Python `isinstance(x, str)`. -/
def Py.isStr : Py → Bool
  | .pstr _ => true
  | _ => false

/-- The value of `x` as a Python `int` when `isinstance(x, int)` holds.
Python booleans are a subclass of `int` (`True == 1`, `False == 0`). -/
def Py.intVal : Py → Option Int
  | .pint n => some n
  | .pbool b => some (if b then 1 else 0)
  | _ => none

/-- A rough `str(x)` used only inside human-readable error messages (no claim
inspects message text); nested containers are abbreviated. -/
def Py.display : Py → String
  | .pnone => "None"
  | .pbool b => if b then "True" else "False"
  | .pint n => toString n
  | .pstr s => s
  | .plist _ => "<list>"
  | .pdict _ => "<dict>"
  | .pother ty _ => "<" ++ ty ++ ">"

/-- Association-list lookup for an embedded Python dict (keys are unique in a real
dict; lookup takes the first binding). -/
def pyLookup (kvs : List (String × Py)) (key : String) : Option Py :=
  (kvs.find? fun kv => kv.1 == key).map (·.2)

/-- Python `key in d` for a dict. -/
def pyHasKey (kvs : List (String × Py)) (key : String) : Bool :=
  (pyLookup kvs key).isSome

/-- The errors a pipeline call can surface to its caller.  The first five mirror
`pyjupiter/exceptions.py`; `pyError` is any other (untyped) Python exception that
escapes, recorded by type name and message. -/
inductive OpError where
  | validation (message : String) (field : Option String)
  | api (message : String) (statusCode : Option Nat) (responseData : Py)
  | auth (message : String) (statusCode : Option Nat) (responseData : Py)
  | rateLimit (message : String) (retryAfter : Option Int) (statusCode : Option Nat) (responseData : Py)
  | network (message : String)
  | pyError (tyName : String) (message : String)

/-- Whether an error is a `JupiterValidationError`. -/
def OpError.isValidation : OpError → Bool
  | .validation _ _ => true
  | _ => false

/-- Whether an error is one of the five typed Jupiter errors (as opposed to a raw
Python exception escaping the library). -/
def OpError.isJupiterError : OpError → Bool
  | .pyError _ _ => false
  | _ => true

/-- `str(e)` for a modelled exception, as used by the message-sniffing rewrap in
`_sign_base64_transaction`. -/
def OpError.pyMessage : OpError → String
  | .validation m _ => m
  | .api m _ _ => m
  | .auth m _ _ => m
  | .rateLimit m _ _ _ => m
  | .network m => m
  | .pyError _ m => m

/-- Whether an `Except` result is a success. -/
def exceptOk {ε α : Type} : Except ε α → Bool
  | .ok _ => true
  | .error _ => false

/-- Whether an `Except` result failed with a `JupiterValidationError`. -/
def failsWithValidation {α : Type} : Except OpError α → Bool
  | .error e => e.isValidation
  | .ok _ => false

/-- Substring test on character lists (for Python `needle in haystack` on `str`
and the `"base64" in str(e).lower()` checks). -/
def charsContain (haystack needle : List Char) : Bool :=
  match haystack with
  | [] => needle.isEmpty
  | _ :: tl => needle.isPrefixOf haystack || charsContain tl needle

/-- Python `needle in haystack` for strings. -/
def strContains (haystack needle : String) : Bool :=
  charsContain haystack.data needle.data

/-- ASCII whitespace for Python `str.strip()` / `int()` stripping. -/
def isSpaceChar (c : Char) : Bool :=
  c = (' ') || c = ('\t') || c = ('\n') || c = ('\r') || c = ('\x0b') || c = ('\x0c')

/-- Strip leading and trailing whitespace from a character list. -/
def trimChars (cs : List Char) : List Char :=
  ((cs.dropWhile isSpaceChar).reverse.dropWhile isSpaceChar).reverse

/-- Python `str.strip()` (over ASCII whitespace). -/
def pyStrip (s : String) : String :=
  String.mk (trimChars s.data)

/-- ASCII lower-casing of one character (`str.lower()`). -/
def lowerChar (c : Char) : Char :=
  if 65 ≤ c.toNat ∧ c.toNat ≤ 90 then Char.ofNat (c.toNat + 32) else c

/-- ASCII lower-casing of a string. -/
def lowerStr (s : String) : String :=
  String.mk (s.data.map lowerChar)

/-- Whether a string starts with the given character. -/
def startsWithChar (s : String) (c : Char) : Bool :=
  match s.data with
  | [] => false
  | x :: _ => x = c

/-- Whether a string ends with the given character. -/
def endsWithChar (s : String) (c : Char) : Bool :=
  match s.data.getLast? with
  | none => false
  | some x => x = c

/-- Digits of a Python integer literal, allowing the single internal underscores
that Python `int()` accepts (`"1_0"` parses as `10`). -/
def pyDigitsVal (acc : Nat) : List Char → Option Nat
  | [] => some acc
  | '_' :: c :: cs => if c.isDigit then pyDigitsVal (acc * 10 + (c.toNat - 48)) cs else none
  | c :: cs => if c.isDigit then pyDigitsVal (acc * 10 + (c.toNat - 48)) cs else none

/-- Python `int(s)` over ASCII text: surrounding whitespace is stripped, an
optional sign precedes a non-empty digit run; anything else raises `ValueError`
(modelled as `none`). -/
def pyIntOfString (s : String) : Option Int :=
  match trimChars s.data with
  | '+' :: c :: cs => if c.isDigit then (pyDigitsVal (c.toNat - 48) cs).map Int.ofNat else none
  | '-' :: c :: cs => if c.isDigit then (pyDigitsVal (c.toNat - 48) cs).map (fun n => -(Int.ofNat n)) else none
  | c :: cs => if c.isDigit then (pyDigitsVal (c.toNat - 48) cs).map Int.ofNat else none
  | [] => none

/-- First index of an element in a list (Python `list.index`, which raises
`ValueError` when absent — modelled as `none`). -/
def listIndex {α : Type} [DecidableEq α] (l : List α) (a : α) : Option Nat :=
  match l with
  | [] => none
  | x :: xs => if x = a then some 0 else (listIndex xs a).map (· + 1)

/-! ### base58 (the `base58` package used for private keys and for `str(Pubkey)`) -/

/-- The Bitcoin base58 alphabet used by the `base58` package. -/
def b58Alphabet : List Char :=
  ("123456789ABCDEFGHJKLMNPQRSTUVWXYZabcdefghijkmnopqrstuvwxyz").data

/-- Value of one base58 digit; `none` for a character outside the alphabet
(`base58.b58decode` raises `ValueError` there). -/
def b58CharVal (c : Char) : Option Nat :=
  listIndex b58Alphabet c

/-- Big-endian byte expansion with explicit fuel (structural recursion so the
kernel can evaluate it; `fuel ≥ n` always suffices because `n / 256 < n`). -/
def natToBytesBEF (fuel n : Nat) : List Nat :=
  match fuel with
  | 0 => []
  | fuel + 1 => if n = 0 then [] else natToBytesBEF fuel (n / 256) ++ [n % 256]

/-- Big-endian byte expansion of a natural number (empty for `0`), as the
`base58` package produces after accumulating the digit value. -/
def natToBytesBE (n : Nat) : List Nat :=
  natToBytesBEF n n

/-- Big-endian byte composition (used by `b58Encode`). -/
def natFromBytesBE (bs : List Nat) : Nat :=
  bs.foldl (fun acc b => acc * 256 + b) 0

/-- `base58.b58decode` over ASCII text: every character must be a base58 digit,
leading `1` digits become leading zero bytes, the rest is the big-endian byte
expansion of the accumulated value. -/
def b58decode (s : String) : Except String (List Nat) :=
  match s.data.mapM b58CharVal with
  | none => .error ("Invalid base58 character")
  | some vals =>
      let lead := (vals.takeWhile fun v => v == 0).length
      let acc := vals.foldl (fun a v => a * 58 + v) 0
      .ok (List.replicate lead 0 ++ natToBytesBE acc)

/-- Base58 digit expansion with explicit fuel (see `natToBytesBEF`). -/
def natToB58DigitsF (fuel n : Nat) : List Nat :=
  match fuel with
  | 0 => []
  | fuel + 1 => if n = 0 then [] else natToB58DigitsF fuel (n / 58) ++ [n % 58]

/-- Base58 digits of a natural number (empty for `0`). -/
def natToB58Digits (n : Nat) : List Nat :=
  natToB58DigitsF n n

/-- `base58.b58encode` (used for `str(wallet.pubkey())` and the `ValueError`
message of `list.index`): leading zero bytes become `1` digits. -/
def b58Encode (bs : List Nat) : String :=
  let lead := (bs.takeWhile fun b => b == 0).length
  let digits := natToB58Digits (natFromBytesBE bs)
  String.mk ((List.replicate lead 0 ++ digits).map fun v => b58Alphabet.getD v ('1'))

/-! ### base64 (Python `base64.b64encode` / `base64.b64decode`) -/

/-- The standard base64 alphabet. -/
def b64Alphabet : List Char :=
  ("ABCDEFGHIJKLMNOPQRSTUVWXYZabcdefghijklmnopqrstuvwxyz0123456789+/").data

/-- Character for a 6-bit value. -/
def b64Char (v : Nat) : Char :=
  b64Alphabet.getD v ('A')

/-- 6-bit value of a base64 character (`none` outside the alphabet). -/
def b64CharVal (c : Char) : Option Nat :=
  listIndex b64Alphabet c

/-- `base64.b64encode` on a byte list: 3-byte groups become 4 characters, the
final partial group is completed with `=` padding.  Total — no failure path. -/
def b64EncodeBytes : List Nat → List Char
  | [] => []
  | [a] => [b64Char (a / 4), b64Char (a % 4 * 16), '=', '=']
  | [a, b] => [b64Char (a / 4), b64Char (a % 4 * 16 + b / 16), b64Char (b % 16 * 4), '=']
  | a :: b :: c :: rest =>
      b64Char (a / 4) :: b64Char (a % 4 * 16 + b / 16) :: b64Char (b % 16 * 4 + c / 64)
        :: b64Char (c % 64) :: b64EncodeBytes rest

/-- `base64.b64decode` on the character level: 4-character groups, `=` padding
closing a group (binascii is lenient about non-zero leftover bits, modelled by
ignoring them, and keeps reading after a padded group).  A length that is not a
multiple of 4 raises `binascii.Error: Incorrect padding` (modelled as `none`).
Unlike binascii we do not silently discard non-alphabet characters first; no
pipeline input relies on that leniency. -/
def b64DecodeChars : List Char → Option (List Nat)
  | [] => some []
  | c1 :: c2 :: c3 :: c4 :: rest =>
      (b64CharVal c1).bind fun v1 => (b64CharVal c2).bind fun v2 =>
        if c3 = ('=') then
          if c4 = ('=') then
            (b64DecodeChars rest).map fun bs => (v1 * 4 + v2 / 16) :: bs
          else none
        else
          (b64CharVal c3).bind fun v3 =>
            if c4 = ('=') then
              (b64DecodeChars rest).map fun bs =>
                (v1 * 4 + v2 / 16) :: (v2 % 16 * 16 + v3 / 4) :: bs
            else
              (b64CharVal c4).bind fun v4 =>
                (b64DecodeChars rest).map fun bs =>
                  (v1 * 4 + v2 / 16) :: (v2 % 16 * 16 + v3 / 4) :: (v3 % 4 * 64 + v4) :: bs
  | _ => none

/-- `base64.b64encode(..).decode("utf-8")` as one step. -/
def b64Encode (bs : List Nat) : String :=
  String.mk (b64EncodeBytes bs)

/-- `base64.b64decode` on a string, with the binascii failure message. -/
def pyB64decode (s : String) : Except String (List Nat) :=
  match b64DecodeChars s.data with
  | some bs => .ok bs
  | none => .error ("Incorrect padding")

/-! ### Versioned-transaction wire codec

Modelled from the spec: the solders `VersionedTransaction` binary format (solders is
an external collaborator, not part of this repository).  A transaction is a
shortvec-counted list of 64-byte signatures followed by the message; a message is an
optional `0x80` version prefix (version 0 is the only versioned format), a 3-byte
header, a shortvec-counted list of 32-byte account keys, and the remaining bytes
(blockhash, instructions, address-table lookups), which no claim inspects and which
the model keeps as an opaque byte tail. -/

/-- Shortvec (compact-u16) length encoding with explicit fuel (structural
recursion so the kernel can evaluate it; `fuel ≥ n` always suffices because
`n / 128 < n` whenever the recursive branch is taken). -/
def shortvecEncodeF (fuel n : Nat) : List Nat :=
  match fuel with
  | 0 => [n]
  | fuel + 1 => if n < 128 then [n] else (n % 128 + 128) :: shortvecEncodeF fuel (n / 128)

/-- Shortvec (compact-u16) length encoding: 7 bits per byte, little-endian, high
bit marks continuation. -/
def shortvecEncode (n : Nat) : List Nat :=
  shortvecEncodeF n n

def shortvecDecode : List Nat → Option (Nat × List Nat)
  | [] => none
  | b :: rest =>
      if b < 128 then some (b, rest)
      else
        match shortvecDecode rest with
        | none => none
        | some (m, r) => some (b - 128 + 128 * m, r)

/-- Read exactly `k` bytes from the front. -/
def readBytes (k : Nat) (l : List Nat) : Option (List Nat × List Nat) :=
  if l.length < k then none else some (l.take k, l.drop k)

/-- Read `count` chunks of `size` bytes each. -/
def readChunks (count size : Nat) (l : List Nat) : Option (List (List Nat) × List Nat) :=
  match count with
  | 0 => some ([], l)
  | c + 1 =>
      match readBytes size l with
      | none => none
      | some (chunk, rest) =>
          match readChunks c size rest with
          | none => none
          | some (chunks, r) => some (chunk :: chunks, r)

/-- The structural content of a solders `VersionedMessage` that the client code
observes; `tail` is the serialized remainder after the account keys. -/
structure VersionedMessage where
  isV0 : Bool
  numRequiredSignatures : Nat
  numReadonlySignedAccounts : Nat
  numReadonlyUnsignedAccounts : Nat
  account_keys : List (List Nat)
  tail : List Nat
  deriving DecidableEq

/-- A solders `VersionedTransaction`: a message plus one 64-byte signature slot
per required signer. -/
structure VersionedTransaction where
  message : VersionedMessage
  signatures : List (List Nat)
  deriving DecidableEq

/-- Serialize a message. -/
def encodeMessage (m : VersionedMessage) : List Nat :=
  (if m.isV0 then [128] else []) ++
    m.numRequiredSignatures :: m.numReadonlySignedAccounts ::
      m.numReadonlyUnsignedAccounts ::
        (shortvecEncode m.account_keys.length ++ m.account_keys.flatten ++ m.tail)

/-- Parse the message body after the optional version prefix. -/
def decodeMessageBody (isV0 : Bool) (l : List Nat) : Option VersionedMessage :=
  match l with
  | nReq :: nRoS :: nRoU :: rest =>
      match shortvecDecode rest with
      | none => none
      | some (nKeys, rest2) =>
          match readChunks nKeys 32 rest2 with
          | none => none
          | some (keys, tail) => some ⟨isV0, nReq, nRoS, nRoU, keys, tail⟩
  | _ => none

/-- Parse a message: a first byte with the high bit set is a version prefix and
only version 0 is defined; otherwise the legacy layout starts immediately. -/
def decodeMessage (l : List Nat) : Option VersionedMessage :=
  match l with
  | [] => none
  | b :: rest =>
      if b = 128 then decodeMessageBody true rest
      else if 128 ≤ b then none
      else decodeMessageBody false (b :: rest)

/-- `bytes(versioned_transaction)`. -/
def txToBytes (t : VersionedTransaction) : List Nat :=
  shortvecEncode t.signatures.length ++ t.signatures.flatten ++ encodeMessage t.message

/-- `VersionedTransaction.from_bytes`; `none` models the solders parse error. -/
def txFromBytes (l : List Nat) : Option VersionedTransaction :=
  match shortvecDecode l with
  | none => none
  | some (n, rest) =>
      match readChunks n 64 rest with
      | none => none
      | some (sigs, msgBytes) =>
          match decodeMessage msgBytes with
          | none => none
          | some m => some ⟨m, sigs⟩

/-- Structural validity of a message: header bytes are bytes, the signer count
fits the legacy first-byte position, keys are 32 bytes, and all content is bytes. -/
def WFMessage (m : VersionedMessage) : Prop :=
  m.numRequiredSignatures < 128 ∧ m.numReadonlySignedAccounts < 256 ∧
    m.numReadonlyUnsignedAccounts < 256 ∧
    (∀ k ∈ m.account_keys, k.length = 32 ∧ ∀ b ∈ k, b < 256) ∧
    (∀ b ∈ m.tail, b < 256)

/-- Structural validity of a decoded transaction. -/
def WFTransaction (t : VersionedTransaction) : Prop :=
  WFMessage t.message ∧ ∀ s ∈ t.signatures, s.length = 64 ∧ ∀ b ∈ s, b < 256

instance : DecidablePred WFMessage := fun m => by
  unfold WFMessage
  infer_instance

instance : DecidablePred WFTransaction := fun t => by
  unfold WFTransaction
  infer_instance

/-! ### Keypair and signing (solders collaborators) -/

/-- Modelled from the spec: a solders `Keypair` is 32 secret bytes plus the 32-byte
public key. -/
structure Keypair where
  secret : List Nat
  pubkeyBytes : List Nat
  deriving DecidableEq

/-- Modelled from the spec: `Keypair.from_bytes` requires exactly 64 bytes
(secret followed by public key); solders raises its own untyped error otherwise. -/
def keypairFromBytes (bs : List Nat) : Except OpError Keypair :=
  if bs.length = 64 then .ok ⟨bs.take 32, bs.drop 32⟩
  else .error (.pyError ("SignerError") ("keypair must be 64 bytes long"))

/-- Modelled from the spec: stand-in for ed25519 signing.  Every claim is about
which slot receives a signature, never about the signature bytes themselves, so
the stand-in only needs to be some concrete 64-byte function of keypair and
message. -/
def kpSign (kp : Keypair) (msg : List Nat) : List Nat :=
  (List.range 64).map fun i => (kp.secret.sum + kp.pubkeyBytes.sum + msg.sum + i) % 256

/-- An entry of the signer list passed to the solders `VersionedTransaction`
constructor, as `_sign_versioned_transaction` builds it: either an existing
signature taken from `versioned_transaction.signatures` or the wallet keypair. -/
inductive SignerEntry where
  | sig (s : List Nat)
  | kp (k : Keypair)
  deriving DecidableEq

/-- Modelled from the spec: `VersionedTransaction(message, signers)` keeps
signature entries as they are and lets keypair entries sign the serialized
message, leaving every other slot untouched. -/
def mkVersionedTransaction (m : VersionedMessage) (signers : List SignerEntry) :
    VersionedTransaction :=
  ⟨m, signers.map fun e => match e with | .sig s => s | .kp k => kpSign k (encodeMessage m)⟩

/-! ### `_CoreJupiterClient` -/

/-- The attributes `_CoreJupiterClient.__init__` sets; no other method assigns
an attribute. -/
structure CoreClient where
  api_key : Option String
  base_url : String
  private_key_env_var : String
  deriving DecidableEq

/-- Python truthiness of the optional `api_key` (`None` and `""` are falsy). -/
def apiKeyTruthy : Option String → Bool
  | none => false
  | some s => decide (s ≠ "")

/-- `_CoreJupiterClient.__init__`. -/
def initCoreClient (api_key : Option String) (private_key_env_var : String) : CoreClient :=
  ⟨api_key,
    if apiKeyTruthy api_key then "https://api.jup.ag" else "https://lite-api.jup.ag",
    private_key_env_var⟩

/-- `_get_headers`. -/
def get_headers (c : CoreClient) : List (String × String) :=
  [("Accept", "application/json")] ++
    (if apiKeyTruthy c.api_key then [("x-api-key", c.api_key.getD "")] else [])

/-- `_load_private_key_bytes`.  The environment (`os.getenv`) and `json.loads`
are the oracles they are in Python, passed explicitly. -/
def load_private_key_bytes (c : CoreClient) (env : String → Option String)
    (jsonLoads : String → Except String Py) : Except OpError (List Nat) :=
  let pk_raw0 := (env c.private_key_env_var).getD ""
  if pk_raw0 = "" then
    .error (.validation ("Private key not found in environment variable " ++ c.private_key_env_var)
      (some c.private_key_env_var))
  else
    let pk := pyStrip pk_raw0
    if pk = "" then
      .error (.validation ("Private key is empty in environment variable " ++ c.private_key_env_var)
        (some c.private_key_env_var))
    else if startsWithChar pk ('[') && endsWithChar pk (']') then
      match jsonLoads pk with
      | .error e =>
          .error (.validation ("Invalid JSON format in private key uint8 array: " ++ e)
            (some c.private_key_env_var))
      | .ok (.plist arr) =>
          if arr.isEmpty then
            .error (.validation ("Private key uint8 array cannot be empty")
              (some c.private_key_env_var))
          else if arr.all (fun x => match x.intVal with
              | some v => decide (0 ≤ v ∧ v ≤ 255)
              | none => false) then
            .ok (arr.map fun x => (x.intVal.getD 0).toNat)
          else
            .error (.validation ("Private key uint8 array contains invalid values")
              (some c.private_key_env_var))
      | .ok _ =>
          .error (.validation ("Private key uint8 array must be a list")
            (some c.private_key_env_var))
    else
      match b58decode pk with
      | .ok decoded =>
          if decoded.isEmpty then
            -- the inner JupiterValidationError is caught by the bare `except` of the
            -- base58 branch and re-wrapped, unlike in the uint8-array branch
            .error (.validation
              ("Invalid base58 private key format: Private key base58 decoded to empty bytes")
              (some c.private_key_env_var))
          else .ok decoded
      | .error e =>
          .error (.validation ("Invalid base58 private key format: " ++ e)
            (some c.private_key_env_var))

/-- `get_public_key` (`str(wallet.pubkey())` is the base58 of the key bytes). -/
def get_public_key (c : CoreClient) (env : String → Option String)
    (jsonLoads : String → Except String Py) : Except OpError String :=
  match load_private_key_bytes c env jsonLoads with
  | .error e => .error e
  | .ok bs =>
      match keypairFromBytes bs with
      | .error e => .error e
      | .ok w => .ok (b58Encode w.pubkeyBytes)

/-- `_sign_versioned_transaction`: derives the wallet, locates its public key in
the account keys (`list.index` raises `ValueError` when absent), replaces that
signer slot (`signers[i] = wallet` raises `IndexError` out of range) and rebuilds
the transaction.  No `try` protects this method. -/
def sign_versioned_transaction (c : CoreClient) (env : String → Option String)
    (jsonLoads : String → Except String Py) (vt : VersionedTransaction) :
    Except OpError VersionedTransaction :=
  match load_private_key_bytes c env jsonLoads with
  | .error e => .error e
  | .ok bs =>
      match keypairFromBytes bs with
      | .error e => .error e
      | .ok wallet =>
          match listIndex vt.message.account_keys wallet.pubkeyBytes with
          | none =>
              .error (.pyError ("ValueError") (b58Encode wallet.pubkeyBytes ++ " is not in list"))
          | some wallet_index =>
              if wallet_index < vt.signatures.length then
                .ok (mkVersionedTransaction vt.message
                  ((vt.signatures.map SignerEntry.sig).set wallet_index (SignerEntry.kp wallet)))
              else
                .error (.pyError ("IndexError") ("list assignment index out of range"))

/-- `_serialize_versioned_transaction`: total, no failure path. -/
def serialize_versioned_transaction (vt : VersionedTransaction) : String :=
  b64Encode (txToBytes vt)

/-- The trailing `except Exception` of `_sign_base64_transaction`: the exception
text chooses between the two `ValidationError` messages; either way the result is
a `ValidationError`. -/
def signB64Rewrap (msg : String) : OpError :=
  if strContains (lowerStr msg) ("base64") || strContains (lowerStr msg) ("invalid") then
    .validation ("Invalid base64 transaction format: " ++ msg) (some ("transaction"))
  else
    .validation ("Failed to decode/parse transaction: " ++ msg) (some ("transaction"))

/-- `_sign_base64_transaction`: emptiness and type guards, base64 decode,
structural decode, sign; `JupiterValidationError` is re-raised unchanged, any
other exception is re-wrapped by message sniffing. -/
def sign_base64_transaction (c : CoreClient) (env : String → Option String)
    (jsonLoads : String → Except String Py) (transaction_base64 : Py) :
    Except OpError VersionedTransaction :=
  if !transaction_base64.truthy then
    .error (.validation
      ("Empty transaction data received from API. This usually indicates insufficient balance or an API error.")
      (some ("transaction")))
  else
    match transaction_base64 with
    | .pstr s =>
        match pyB64decode s with
        | .error e => .error (signB64Rewrap e)
        | .ok transaction_bytes =>
            if transaction_bytes.isEmpty then
              .error (.validation ("Transaction base64 decoded to empty bytes")
                (some ("transaction")))
            else
              match txFromBytes transaction_bytes with
              | none => .error (signB64Rewrap ("failed to deserialize versioned transaction"))
              | some vt =>
                  match sign_versioned_transaction c env jsonLoads vt with
                  | .ok signedTx => .ok signedTx
                  | .error e =>
                      if e.isValidation then .error e else .error (signB64Rewrap e.pyMessage)
    | _ =>
        .error (.validation ("Transaction data must be a string") (some ("transaction")))

/-! ### `_handle_response` and the pipeline operations (`UltraApiClient`) -/

/-- The parts of a curl_cffi response object the handler reads: status code, a
`json()` accessor that may itself raise, and headers. -/
structure HttpResponse where
  status_code : Nat
  jsonResult : Except String Py
  headers : List (String × String)

/-- Case-insensitive header lookup (curl_cffi header mappings are
case-insensitive). -/
def headersGet (hs : List (String × String)) (name : String) : Option String :=
  (hs.find? fun kv => lowerStr kv.1 == lowerStr name).map (·.2)

/-- Python `key in x`: defined for dict (keys), list (membership) and str
(substring); any other value raises `TypeError`. -/
def pyContains (key : String) : Py → Except String Bool
  | .pdict kvs => .ok (pyHasKey kvs key)
  | .plist xs => .ok (xs.any fun x => match x with | .pstr t => t == key | _ => false)
  | .pstr s => .ok (strContains s key)
  | _ => .error ("TypeError")

/-- Python `x[key]` with a string key: dict lookup; everything else raises. -/
def pySubscript (x : Py) (key : String) : Except String Py :=
  match x with
  | .pdict kvs =>
      match pyLookup kvs key with
      | some v => .ok v
      | none => .error ("KeyError")
  | _ => .error ("TypeError")

/-- Message selection of the generic `JupiterAPIError` branch of
`_handle_response`: `errorMessage`, then `message`, then the fallback; an
exception raised by the `in`/indexing on a non-dict truthy body propagates out
of the handler clause unhandled. -/
def errorBodyMessage (status : Nat) (rd : Py) : Except String String :=
  if rd.truthy then
    match pyContains ("errorMessage") rd with
    | .error ty => .error ty
    | .ok true =>
        match pySubscript rd ("errorMessage") with
        | .error ty => .error ty
        | .ok v => .ok v.display
    | .ok false =>
        match pyContains ("message") rd with
        | .error ty => .error ty
        | .ok true =>
            match pySubscript rd ("message") with
            | .error ty => .error ty
            | .ok v => .ok v.display
        | .ok false => .ok ("HTTP " ++ toString status ++ " error")
  else .ok ("HTTP " ++ toString status ++ " error")

/-- `_handle_response` (identical in the sync and async clients).
`raise_for_status` raises a `RequestsError` carrying the response exactly for
status 400–599; that error is classified by status code.  On a passing status
the body is parsed: a `json()` failure is a `JSONDecodeError`, which is not a
`RequestsError`, so the final `except Exception` wraps it as a
`JupiterNetworkError`; a non-dict body is a `JupiterValidationError`; a dict
body carrying `errorMessage` is a `JupiterAPIError` despite the status. -/
def handle_response (r : HttpResponse) : Except OpError Py :=
  if 400 ≤ r.status_code ∧ r.status_code < 600 then
    let response_data : Py := match r.jsonResult with | .ok v => v | .error _ => .pdict []
    if r.status_code = 401 then
      .error (.auth ("Authentication failed: Invalid API key or unauthorized access")
        (some r.status_code) response_data)
    else if r.status_code = 403 then
      .error (.auth ("Access forbidden: Insufficient permissions")
        (some r.status_code) response_data)
    else if r.status_code = 429 then
      let retry_after : Option Int :=
        match headersGet r.headers ("retry-after") with
        | none => none
        | some h => if h = "" then none else pyIntOfString h
      .error (.rateLimit ("Rate limit exceeded. Please try again later.") retry_after
        (some r.status_code) response_data)
    else
      match errorBodyMessage r.status_code response_data with
      | .ok msg => .error (.api msg (some r.status_code) response_data)
      | .error ty => .error (.pyError ty ("error while selecting the API error message"))
  else
    match r.jsonResult with
    | .error e => .error (.network ("Network error occurred: " ++ e))
    | .ok response_data =>
        match response_data with
        | .pdict kvs =>
            if pyHasKey kvs ("errorMessage") then
              .error (.api ("API Error: " ++ ((pyLookup kvs ("errorMessage")).getD Py.pnone).display)
                (some r.status_code) response_data)
            else .ok response_data
        | _ => .error (.validation ("Invalid response format: expected JSON object") none)

/-- The outcome of one transport call (`self.client.get` / `self.client.post`):
either a response object was obtained, or the transport raised before any
response existed (connection failure, timeout, DNS failure). -/
inductive TransportOutcome where
  | resp (r : HttpResponse)
  | raised (excType : String) (msg : String)

/-- `_make_get_request`: nothing catches an exception raised by
`self.client.get` itself; `_handle_response` only ever sees an obtained
response. -/
def make_get_request (outcome : TransportOutcome) : Except OpError Py :=
  match outcome with
  | .raised ty msg => .error (.pyError ty msg)
  | .resp r => handle_response r

/-- `_make_post_request`, same shape as `_make_get_request`. -/
def make_post_request (outcome : TransportOutcome) : Except OpError Py :=
  match outcome with
  | .raised ty msg => .error (.pyError ty msg)
  | .resp r => handle_response r

/-- `_build_order_url`. -/
def build_order_url (c : CoreClient) : String :=
  c.base_url ++ "/ultra/v1/order"

/-- `_build_execute_url`. -/
def build_execute_url (c : CoreClient) : String :=
  c.base_url ++ "/ultra/v1/execute"

/-- `_build_balances_url`. -/
def build_balances_url (c : CoreClient) (address : String) : String :=
  c.base_url ++ "/ultra/v1/balances/" ++ address

/-- `_build_shield_url`. -/
def build_shield_url (c : CoreClient) : String :=
  c.base_url ++ "/ultra/v1/shield"

/-- `_prepare_shield_params`. -/
def prepare_shield_params (mints : List String) : List (String × String) :=
  [("mints", String.intercalate (",") mints)]

/-- `balances`: the transport collaborator maps the requested URL to an outcome
(query parameters and headers do not change which outcome the model sees). -/
def balances (c : CoreClient) (transport : String → TransportOutcome) (address : String) :
    Except OpError Py :=
  make_get_request (transport (build_balances_url c address))

/-- `shield`. -/
def shield (c : CoreClient) (transport : String → TransportOutcome) :
    Except OpError Py :=
  make_get_request (transport (build_shield_url c))

/-- `order`. -/
def order (c : CoreClient) (transport : String → TransportOutcome) :
    Except OpError Py :=
  make_get_request (transport (build_order_url c))

/-- `execute`. -/
def execute (c : CoreClient) (transport : String → TransportOutcome) :
    Except OpError Py :=
  make_post_request (transport (build_execute_url c))

/-- `UltraExecuteRequest` (a pydantic model; both fields are declared `str`). -/
structure UltraExecuteRequest where
  signed_transaction : String
  request_id : String
  deriving DecidableEq

/-- Modelled from the spec: pydantic validation of `UltraExecuteRequest` — a
non-string `request_id` raises the own `ValidationError` of pydantic, which is not a
Jupiter error. -/
def mkUltraExecuteRequest (request_id : Py) (signed : String) :
    Except OpError UltraExecuteRequest :=
  match request_id with
  | .pstr s => .ok ⟨signed, s⟩
  | _ => .error (.pyError ("pydantic.ValidationError") ("request_id: Input should be a valid string"))

/-- `_prepare_execute_request_from_order`. -/
def prepare_execute_request_from_order (c : CoreClient) (env : String → Option String)
    (jsonLoads : String → Except String Py) (order_response : Py) :
    Except OpError UltraExecuteRequest :=
  match order_response with
  | .pdict kvs =>
      if !pyHasKey kvs ("requestId") then
        .error (.validation ("Order response missing required field: requestId")
          (some ("requestId")))
      else if !pyHasKey kvs ("transaction") then
        .error (.validation ("Order response missing required field: transaction")
          (some ("transaction")))
      else
        let transaction_data := (pyLookup kvs ("transaction")).getD Py.pnone
        if !transaction_data.truthy || !transaction_data.isStr then
          .error (.validation ("Order response contains invalid transaction data")
            (some ("transaction")))
        else
          let request_id := (pyLookup kvs ("requestId")).getD Py.pnone
          match sign_base64_transaction c env jsonLoads transaction_data with
          | .error e => .error e
          | .ok signedTx =>
              mkUltraExecuteRequest request_id (serialize_versioned_transaction signedTx)
  | _ =>
      .error (.validation ("Invalid order response: expected dictionary") none)

/-- `order_and_execute`: the order outcome, then
`_prepare_execute_request_from_order`, then the execute call.  The function
argument stands for `_call_execute`, so whether execute was invoked is visible
as dependence on that argument. -/
def order_and_execute (c : CoreClient) (env : String → Option String)
    (jsonLoads : String → Except String Py) (orderOutcome : Except OpError Py)
    (executeFn : UltraExecuteRequest → Except OpError Py) : Except OpError Py :=
  match orderOutcome with
  | .error e => .error e
  | .ok order_response =>
      match prepare_execute_request_from_order c env jsonLoads order_response with
      | .error e => .error e
      | .ok execute_request => executeFn execute_request

/-- No `_CoreJupiterClient` method assigns an attribute of `self` outside
`__init__`; the state-passing embedding of a method therefore pairs its result
with the client it leaves behind, which is the client it received. -/
def get_public_key_step (c : CoreClient) (env : String → Option String)
    (jsonLoads : String → Except String Py) : Except OpError String × CoreClient :=
  (get_public_key c env jsonLoads, c)

/-- State-passing embedding of `_sign_versioned_transaction` (see
`get_public_key_step`). -/
def sign_versioned_transaction_step (c : CoreClient) (env : String → Option String)
    (jsonLoads : String → Except String Py) (vt : VersionedTransaction) :
    Except OpError VersionedTransaction × CoreClient :=
  (sign_versioned_transaction c env jsonLoads vt, c)

/-- State-passing embedding of `_load_private_key_bytes` (see
`get_public_key_step`). -/
def load_private_key_bytes_step (c : CoreClient) (env : String → Option String)
    (jsonLoads : String → Except String Py) : Except OpError (List Nat) × CoreClient :=
  (load_private_key_bytes c env jsonLoads, c)

/-! ### Claim-side definitions and concrete fixtures -/

/-- The retry-after extraction as the claim describes it, written from the
spec: the integer value of the `retry-after` header when it is present and
parses as an integer; unset when the header is absent or fails to parse. -/
def claimedRetryAfter (hs : List (String × String)) : Option Int :=
  (headersGet hs ("retry-after")).bind pyIntOfString

/-- The order-response shapes the claim says are rejected before execute is
invoked: not a dict, missing `requestId`, missing `transaction`, or a
`transaction` value that is empty or not a string. -/
def badOrderResponse (resp : Py) : Bool :=
  match resp with
  | .pdict kvs =>
      !pyHasKey kvs ("requestId") || !pyHasKey kvs ("transaction") ||
        (let td := (pyLookup kvs ("transaction")).getD Py.pnone
         !td.truthy || !td.isStr)
  | _ => true

/-- The success condition the claim states for `loadSecretBytes`, written from the
claim: a present, non-blank secret text; a trimmed text bracketed by `[` and
`]` must be a JSON list, non-empty, of integers 0–255, and the result is
exactly those bytes; any other trimmed text must base58-decode to a non-empty
byte sequence, which is the result. -/
def loadKeyOkSpec (raw : Option String) (jsonLoads : String → Except String Py)
    (bs : List Nat) : Bool :=
  match raw with
  | none => false
  | some s =>
      if s = "" then false
      else
        let t := pyStrip s
        if t = "" then false
        else if startsWithChar t ('[') && endsWithChar t (']') then
          match jsonLoads t with
          | .ok (.plist arr) =>
              !arr.isEmpty &&
                arr.all (fun x => match x.intVal with
                  | some v => decide (0 ≤ v ∧ v ≤ 255)
                  | none => false) &&
                decide (bs = arr.map fun x => (x.intVal.getD 0).toNat)
          | _ => false
        else
          match b58decode t with
          | .ok decoded => !decoded.isEmpty && decide (bs = decoded)
          | .error _ => false

/-- Fixture: a 64-byte keypair encoding (bytes 0–63). -/
def wKeyBytes : List Nat := List.range 64

/-- Fixture: the wallet keypair `Keypair.from_bytes(wKeyBytes)` yields. -/
def wWallet : Keypair := ⟨wKeyBytes.take 32, wKeyBytes.drop 32⟩

/-- Fixture: an account key that is not the wallet public key. -/
def wOtherKey : List Nat := List.replicate 32 7

/-- Fixture: an environment holding a bracketed secret under every name. -/
def wEnv : String → Option String := fun _ => some ("[k]")

/-- Fixture: a `json.loads` oracle answering with the byte list 0–63. -/
def wJson : String → Except String Py :=
  fun _ => .ok (.plist ((List.range 64).map fun n => Py.pint (Int.ofNat n)))

/-- Fixture: a keyless client. -/
def wClient : CoreClient := initCoreClient none ("PRIVATE_KEY")

/-- Fixture: pre-existing signatures of other parties. -/
def wSig0 : List Nat := List.replicate 64 1

/-- Fixture: a second pre-existing signature slot. -/
def wSig1 : List Nat := List.replicate 64 2

/-- Fixture: a two-signer message whose second account key is the wallet. -/
def wMsg2 : VersionedMessage := ⟨false, 2, 0, 1, [wOtherKey, wWallet.pubkeyBytes], [9, 9]⟩

/-- Fixture: a two-signer transaction (partially signed by the other party). -/
def wTx2 : VersionedTransaction := ⟨wMsg2, [wSig0, wSig1]⟩

/-- Fixture: `wTx2` after the wallet signed slot 1. -/
def wSigned2 : VersionedTransaction :=
  ⟨wMsg2, [wSig0, kpSign wWallet (encodeMessage wMsg2)]⟩

/-- Fixture: a message whose account keys do not contain the wallet key. -/
def wMsgNo : VersionedMessage := ⟨false, 1, 0, 0, [wOtherKey], [3]⟩

/-- Fixture: a transaction that does not list the wallet as a signer. -/
def wTxNo : VersionedTransaction := ⟨wMsgNo, [wSig0]⟩

/-- Fixture: a 429 response carrying `retry-after: 30`. -/
def wR429 : HttpResponse := ⟨429, .ok (.pdict []), [("retry-after", "30")]⟩

/-! ### Claim theorems -/

/-! ### Proofs -/

theorem sextet_div16 (a b : Nat) (hb : b < 256) :
    (a % 4 * 16 + b / 16) / 16 = a % 4 := by
  have h1 : b / 16 < 16 := by omega
  rw [Nat.add_comm, Nat.add_mul_div_right _ _ (show (0:Nat) < 16 by omega),
    Nat.div_eq_of_lt h1]
  omega

theorem sextet_mod16 (a b : Nat) (hb : b < 256) :
    (a % 4 * 16 + b / 16) % 16 = b / 16 := by
  have h1 : b / 16 < 16 := by omega
  rw [Nat.mul_comm (a % 4) 16, Nat.mul_add_mod, Nat.mod_eq_of_lt h1]

theorem sextet_div4 (b c : Nat) (hc : c < 256) :
    (b % 16 * 4 + c / 64) / 4 = b % 16 := by
  have h1 : c / 64 < 4 := by omega
  rw [Nat.add_comm, Nat.add_mul_div_right _ _ (show (0:Nat) < 4 by omega),
    Nat.div_eq_of_lt h1]
  omega

theorem sextet_mod4 (b c : Nat) (hc : c < 256) :
    (b % 16 * 4 + c / 64) % 4 = c / 64 := by
  have h1 : c / 64 < 4 := by omega
  rw [Nat.mul_comm (b % 16) 4, Nat.mul_add_mod, Nat.mod_eq_of_lt h1]

theorem sextet_div16_zero (a : Nat) : a % 4 * 16 / 16 = a % 4 := by
  rw [Nat.mul_comm (a % 4) 16, Nat.mul_div_right _ (show (0:Nat) < 16 by omega)]

theorem sextet_div4_zero (b : Nat) : b % 16 * 4 / 4 = b % 16 := by
  rw [Nat.mul_comm (b % 16) 4, Nat.mul_div_right _ (show (0:Nat) < 4 by omega)]

theorem b64CharVal_b64Char : ∀ v : Nat, v < 64 → b64CharVal (b64Char v) = some v := by
  decide

theorem b64Char_ne_pad : ∀ v : Nat, v < 64 → b64Char v ≠ ('=') := by
  decide

/-- Decoding inverts encoding on genuine byte lists. -/
theorem b64_roundtrip : ∀ l : List Nat, (∀ b ∈ l, b < 256) →
    b64DecodeChars (b64EncodeBytes l) = some l := by
  intro l
  induction l using b64EncodeBytes.induct with
  | case1 =>
      intro _
      simp [b64EncodeBytes, b64DecodeChars]
  | case2 a =>
      intro h
      have ha : a < 256 := h a (by simp)
      have h1 : a / 4 < 64 := by omega
      have h2 : a % 4 * 16 < 64 := by omega
      simp [b64EncodeBytes, b64DecodeChars, b64CharVal_b64Char _ h1,
        b64CharVal_b64Char _ h2, sextet_div16_zero]
      omega
  | case3 a b =>
      intro h
      have ha : a < 256 := h a (by simp)
      have hb : b < 256 := h b (by simp)
      have h1 : a / 4 < 64 := by omega
      have h2 : a % 4 * 16 + b / 16 < 64 := by omega
      have h3 : b % 16 * 4 < 64 := by omega
      simp [b64EncodeBytes, b64DecodeChars, b64CharVal_b64Char _ h1,
        b64CharVal_b64Char _ h2, b64CharVal_b64Char _ h3, b64Char_ne_pad _ h3,
        sextet_div16 a b hb, sextet_mod16 a b hb, sextet_div4_zero]
      omega
  | case4 a b c rest ih =>
      intro h
      have ha : a < 256 := h a (by simp)
      have hb : b < 256 := h b (by simp)
      have hc : c < 256 := h c (by simp)
      have h1 : a / 4 < 64 := by omega
      have h2 : a % 4 * 16 + b / 16 < 64 := by omega
      have h3 : b % 16 * 4 + c / 64 < 64 := by omega
      have h4 : c % 64 < 64 := by omega
      have hrest : ∀ x ∈ rest, x < 256 := fun x hx => h x (by simp [hx])
      simp [b64EncodeBytes, b64DecodeChars, b64CharVal_b64Char _ h1,
        b64CharVal_b64Char _ h2, b64CharVal_b64Char _ h3, b64CharVal_b64Char _ h4,
        b64Char_ne_pad _ h3, b64Char_ne_pad _ h4, ih hrest,
        sextet_div16 a b hb, sextet_mod16 a b hb, sextet_div4 b c hc, sextet_mod4 b c hc]
      omega

theorem shortvecEncodeF_ne_nil (fuel n : Nat) : shortvecEncodeF fuel n ≠ [] := by
  cases fuel with
  | zero => simp [shortvecEncodeF]
  | succ f =>
      simp only [shortvecEncodeF]
      split <;> simp

theorem shortvecEncode_ne_nil (n : Nat) : shortvecEncode n ≠ [] :=
  shortvecEncodeF_ne_nil n n

theorem shortvecEncodeF_bytes (fuel : Nat) :
    ∀ n, n ≤ fuel → ∀ b ∈ shortvecEncodeF fuel n, b < 256 := by
  induction fuel with
  | zero =>
      intro n hn b hb
      simp only [shortvecEncodeF, List.mem_singleton] at hb
      omega
  | succ f ih =>
      intro n hn b hb
      simp only [shortvecEncodeF] at hb
      split at hb
      · simp only [List.mem_singleton] at hb
        omega
      · rcases List.mem_cons.mp hb with rfl | h
        · omega
        · exact ih (n / 128) (by omega) b h

theorem shortvecEncode_bytes (n : Nat) : ∀ b ∈ shortvecEncode n, b < 256 :=
  shortvecEncodeF_bytes n n (Nat.le_refl n)

theorem shortvecF_roundtrip (fuel : Nat) :
    ∀ n, n ≤ fuel → ∀ r, shortvecDecode (shortvecEncodeF fuel n ++ r) = some (n, r) := by
  induction fuel with
  | zero =>
      intro n hn r
      have hz : n = 0 := by omega
      subst hz
      simp [shortvecEncodeF, shortvecDecode]
  | succ f ih =>
      intro n hn r
      simp only [shortvecEncodeF]
      split
      · rename_i h
        simp [shortvecDecode, h]
      · rename_i h
        have hrec := ih (n / 128) (by omega) r
        simp only [List.cons_append, shortvecDecode, if_neg (by omega : ¬ n % 128 + 128 < 128),
          List.append_eq, hrec, Option.some.injEq, Prod.mk.injEq, eq_self_iff_true, and_true]
        omega

theorem shortvec_roundtrip (n : Nat) (r : List Nat) :
    shortvecDecode (shortvecEncode n ++ r) = some (n, r) :=
  shortvecF_roundtrip n n (Nat.le_refl n) r

theorem readBytes_append (k : Nat) (xs r : List Nat) (h : xs.length = k) :
    readBytes k (xs ++ r) = some (xs, r) := by
  subst h
  simp [readBytes, List.take_left, List.drop_left]

theorem readChunks_append (size : Nat) (cs : List (List Nat)) (r : List Nat)
    (h : ∀ c ∈ cs, c.length = size) :
    readChunks cs.length size (cs.flatten ++ r) = some (cs, r) := by
  induction cs with
  | nil => simp [readChunks]
  | cons c cs ih =>
      have hc : c.length = size := h c (by simp)
      have hcs : ∀ x ∈ cs, x.length = size := fun x hx => h x (by simp [hx])
      simp only [List.length_cons, List.flatten_cons, List.append_assoc, readChunks,
        readBytes_append size c _ hc, ih hcs]

theorem message_roundtrip (m : VersionedMessage) (h : WFMessage m) :
    decodeMessage (encodeMessage m) = some m := by
  obtain ⟨h1, _, _, hkeys, _⟩ := h
  have hbody : decodeMessageBody m.isV0
      (m.numRequiredSignatures :: m.numReadonlySignedAccounts ::
        m.numReadonlyUnsignedAccounts ::
          (shortvecEncode m.account_keys.length ++ (m.account_keys.flatten ++ m.tail))) =
      some m := by
    simp only [decodeMessageBody, shortvec_roundtrip,
      readChunks_append 32 m.account_keys m.tail (fun k hk => (hkeys k hk).1)]
  cases hv : m.isV0 with
  | true =>
      rw [hv] at hbody
      simp [encodeMessage, decodeMessage, hv, hbody]
  | false =>
      rw [hv] at hbody
      have hne : ¬ (m.numRequiredSignatures = 128) := by omega
      have hge : ¬ (128 ≤ m.numRequiredSignatures) := by omega
      simp [encodeMessage, decodeMessage, hv, hne, hge, hbody]

theorem tx_roundtrip (t : VersionedTransaction) (h : WFTransaction t) :
    txFromBytes (txToBytes t) = some t := by
  obtain ⟨hm, hsigs⟩ := h
  simp only [txToBytes, txFromBytes, List.append_assoc, shortvec_roundtrip,
    readChunks_append 64 t.signatures _ (fun s hs => (hsigs s hs).1),
    message_roundtrip t.message hm]

theorem encodeMessage_bytes (m : VersionedMessage) (h : WFMessage m) :
    ∀ b ∈ encodeMessage m, b < 256 := by
  obtain ⟨h1, h2, h3, hkeys, htail⟩ := h
  intro b hb
  unfold encodeMessage at hb
  rcases List.mem_append.mp hb with hb | hb
  · by_cases hv : m.isV0
    · rw [if_pos hv] at hb
      simp only [List.mem_singleton] at hb
      omega
    · rw [if_neg hv] at hb
      simp at hb
  · rcases List.mem_cons.mp hb with rfl | hb
    · omega
    rcases List.mem_cons.mp hb with rfl | hb
    · omega
    rcases List.mem_cons.mp hb with rfl | hb
    · omega
    rcases List.mem_append.mp hb with hb | hb
    · rcases List.mem_append.mp hb with hb | hb
      · exact shortvecEncode_bytes _ b hb
      · obtain ⟨k, hk, hbk⟩ := List.mem_flatten.mp hb
        exact (hkeys k hk).2 b hbk
    · exact htail b hb

theorem txToBytes_bytes (t : VersionedTransaction) (h : WFTransaction t) :
    ∀ b ∈ txToBytes t, b < 256 := by
  obtain ⟨hm, hsigs⟩ := h
  intro b hb
  simp only [txToBytes, List.append_assoc, List.mem_append] at hb
  rcases hb with hb | hb | hb
  · exact shortvecEncode_bytes _ b hb
  · obtain ⟨s, hs, hbs⟩ := List.mem_flatten.mp hb
    exact (hsigs s hs).2 b hbs
  · exact encodeMessage_bytes t.message hm b hb

theorem txToBytes_ne_nil (t : VersionedTransaction) : txToBytes t ≠ [] := by
  unfold txToBytes
  cases hs : shortvecEncode t.signatures.length with
  | nil => exact absurd hs (shortvecEncode_ne_nil _)
  | cons a l => simp

/-- C1: the claim says a transport exception raised before any response is
received surfaces from every pipeline operation as a `JupiterNetworkError`
wrapping the original exception.  The code does not do that: `order`,
`execute`, `balances` and `shield` call `self.client.get`/`self.client.post`
outside any try block, and `_handle_response` — the only place where network
wrapping happens — runs only on an already-obtained response; so the raw
transport exception propagates to the caller and is in particular never a
`JupiterNetworkError`. -/
theorem transport_raise_propagates_raw (c : CoreClient)
    (transport : String → TransportOutcome) (address ty msg : String)
    (hb : transport (build_balances_url c address) = .raised ty msg)
    (ho : transport (build_order_url c) = .raised ty msg)
    (hs : transport (build_shield_url c) = .raised ty msg)
    (he : transport (build_execute_url c) = .raised ty msg) :
    balances c transport address = .error (.pyError ty msg) ∧
    order c transport = .error (.pyError ty msg) ∧
    shield c transport = .error (.pyError ty msg) ∧
    execute c transport = .error (.pyError ty msg) ∧
    ∀ m, OpError.pyError ty msg ≠ OpError.network m := by
  refine ⟨?_, ?_, ?_, ?_, ?_⟩
  · simp [balances, make_get_request, hb]
  · simp [order, make_get_request, ho]
  · simp [shield, make_get_request, hs]
  · simp [execute, make_post_request, he]
  · intro m hcontra
    exact OpError.noConfusion hcontra

theorem transport_raise_propagates_raw_witness :
    balances wClient (fun _ => .raised ("RequestsError") ("Failed to connect"))
      ("addr") = .error (.pyError ("RequestsError") ("Failed to connect")) :=
  (transport_raise_propagates_raw wClient
    (fun _ => .raised ("RequestsError") ("Failed to connect"))
    ("addr") ("RequestsError") ("Failed to connect") rfl rfl rfl rfl).1

/-- C5: a 429 response raises `JupiterRateLimitError` whose `retry_after` is
the integer value of the `retry-after` header when present and parseable, and
`None` when the header is absent, empty, or unparseable — never an error. -/
theorem rate_limit_classification (r : HttpResponse) (h : r.status_code = 429) :
    ∃ body, handle_response r =
      .error (.rateLimit ("Rate limit exceeded. Please try again later.")
        (claimedRetryAfter r.headers) (some 429) body) := by
  have hra : (match headersGet r.headers ("retry-after") with
      | none => none
      | some h => if h = "" then none else pyIntOfString h) =
      claimedRetryAfter r.headers := by
    unfold claimedRetryAfter
    cases hh : headersGet r.headers ("retry-after") with
    | none => rfl
    | some v =>
        by_cases hv : v = ""
        · subst hv
          rfl
        · simp [hv]
  refine ⟨(match r.jsonResult with | .ok v => v | .error _ => Py.pdict []), ?_⟩
  simp only [handle_response, h, hra]
  norm_num

theorem rate_limit_classification_witness :
    ∃ body, handle_response wR429 =
      .error (.rateLimit ("Rate limit exceeded. Please try again later.")
        (some 30) (some 429) body) := by
  have h := rate_limit_classification wR429 rfl
  rwa [show claimedRetryAfter wR429.headers = some 30 by decide] at h

/-- C6: a 2xx response whose parsed body is a JSON object containing
`errorMessage` is classified as `JupiterAPIError` carrying the status code and
the full body, not returned as a success payload. -/
theorem in_band_error_is_api_error (r : HttpResponse) (kvs : List (String × Py))
    (h2 : 200 ≤ r.status_code) (h3 : r.status_code < 300)
    (hjson : r.jsonResult = .ok (.pdict kvs))
    (hkey : pyHasKey kvs ("errorMessage") = true) :
    ∃ m, handle_response r = .error (.api m (some r.status_code) (.pdict kvs)) := by
  refine ⟨"API Error: " ++ ((pyLookup kvs ("errorMessage")).getD Py.pnone).display, ?_⟩
  unfold handle_response
  rw [if_neg (by omega), hjson]
  simp [hkey]

theorem in_band_error_is_api_error_witness :
    ∃ m, handle_response ⟨200, .ok (.pdict [("errorMessage", .pstr ("x"))]), []⟩ =
      .error (.api m (some 200) (.pdict [("errorMessage", .pstr ("x"))])) :=
  in_band_error_is_api_error _ _ (by decide) (by decide) rfl (by decide)

/-- C8: encoding a structurally valid decoded transaction to base64 and
decoding that string yields the same transaction; the encoding direction
(`serialize_versioned_transaction`) is a total function by type. -/
theorem encode_decode_roundtrip (t : VersionedTransaction) (h : WFTransaction t) :
    pyB64decode (serialize_versioned_transaction t) = .ok (txToBytes t) ∧
    txFromBytes (txToBytes t) = some t := by
  constructor
  · unfold pyB64decode serialize_versioned_transaction b64Encode
    rw [show (String.mk (b64EncodeBytes (txToBytes t))).data =
        b64EncodeBytes (txToBytes t) from rfl,
      b64_roundtrip _ (txToBytes_bytes t h)]
  · exact tx_roundtrip t h

theorem encode_decode_roundtrip_witness :
    pyB64decode (serialize_versioned_transaction wTx2) = .ok (txToBytes wTx2) ∧
    txFromBytes (txToBytes wTx2) = some wTx2 :=
  encode_decode_roundtrip wTx2 (by decide)

/-- C9: no client operation mutates the client (the state-passing embeddings
return it unchanged), key-using operations depend on the client only through
`private_key_env_var`, and their key material is re-read from the environment
on every call: any environment agreeing on that variable gives the same
result. -/
theorem client_immutable_and_rederives (c c2 : CoreClient)
    (env env2 : String → Option String) (jsonLoads : String → Except String Py)
    (vt : VersionedTransaction)
    (hagree : env2 c.private_key_env_var = env c.private_key_env_var)
    (hc2 : c2.private_key_env_var = c.private_key_env_var) :
    (load_private_key_bytes_step c env jsonLoads).2 = c ∧
    (get_public_key_step c env jsonLoads).2 = c ∧
    (sign_versioned_transaction_step c env jsonLoads vt).2 = c ∧
    load_private_key_bytes c env2 jsonLoads = load_private_key_bytes c env jsonLoads ∧
    get_public_key c env2 jsonLoads = get_public_key c env jsonLoads ∧
    sign_versioned_transaction c env2 jsonLoads vt =
      sign_versioned_transaction c env jsonLoads vt ∧
    load_private_key_bytes c2 env jsonLoads = load_private_key_bytes c env jsonLoads ∧
    get_public_key c2 env jsonLoads = get_public_key c env jsonLoads ∧
    sign_versioned_transaction c2 env jsonLoads vt =
      sign_versioned_transaction c env jsonLoads vt := by
  have hload : load_private_key_bytes c env2 jsonLoads =
      load_private_key_bytes c env jsonLoads := by
    unfold load_private_key_bytes
    rw [hagree]
  have hload2 : load_private_key_bytes c2 env jsonLoads =
      load_private_key_bytes c env jsonLoads := by
    unfold load_private_key_bytes
    rw [hc2]
  refine ⟨rfl, rfl, rfl, hload, ?_, ?_, hload2, ?_, ?_⟩
  · unfold get_public_key
    rw [hload]
  · unfold sign_versioned_transaction
    rw [hload]
  · unfold get_public_key
    rw [hload2]
  · unfold sign_versioned_transaction
    rw [hload2]

theorem client_immutable_and_rederives_witness :
    (sign_versioned_transaction_step wClient wEnv wJson wTx2).2 = wClient ∧
    get_public_key wClient (fun v => if v = ("PRIVATE_KEY") then some ("[k]") else none)
      wJson = get_public_key wClient wEnv wJson := by
  have h := client_immutable_and_rederives wClient
    (initCoreClient (some ("k")) ("PRIVATE_KEY")) wEnv
    (fun v => if v = ("PRIVATE_KEY") then some ("[k]") else none) wJson wTx2 rfl rfl
  exact ⟨h.2.2.1, h.2.2.2.2.1⟩

/-- C2: signing a decoded transaction whose account keys contain the derived
wallet public key at position `k` (the position `list.index` finds) with `k` a
valid signature slot overwrites only slot `k` and leaves every other signature
slot byte-identical and the message unchanged. -/
theorem sign_preserves_other_slots (c : CoreClient) (env : String → Option String)
    (jsonLoads : String → Except String Py) (vt : VersionedTransaction)
    (bs : List Nat) (w : Keypair) (k : Nat)
    (hload : load_private_key_bytes c env jsonLoads = .ok bs)
    (hkp : keypairFromBytes bs = .ok w)
    (hidx : listIndex vt.message.account_keys w.pubkeyBytes = some k)
    (hk : k < vt.signatures.length) :
    ∃ vt', sign_versioned_transaction c env jsonLoads vt = .ok vt' ∧
      vt'.message = vt.message ∧
      vt'.signatures.length = vt.signatures.length ∧
      vt'.signatures.getD k [] = kpSign w (encodeMessage vt.message) ∧
      ∀ i, i < vt.signatures.length → i ≠ k →
        vt'.signatures.getD i [] = vt.signatures.getD i [] := by
  refine ⟨mkVersionedTransaction vt.message
      ((vt.signatures.map SignerEntry.sig).set k (SignerEntry.kp w)), ?_, rfl, ?_, ?_, ?_⟩
  · simp only [sign_versioned_transaction, hload, hkp, hidx, if_pos hk]
  · simp [mkVersionedTransaction]
  · simp only [mkVersionedTransaction]
    rw [List.getD_eq_getElem _ _ (by simp [hk]), List.getElem_map,
      List.getElem_set_self (by simp [hk])]
  · intro i hi hik
    simp only [mkVersionedTransaction]
    rw [List.getD_eq_getElem _ _ (by simp [hi]), List.getD_eq_getElem _ _ hi,
      List.getElem_map, List.getElem_set_ne (Ne.symm hik), List.getElem_map]

theorem sign_preserves_other_slots_witness :
    ∃ vt', sign_versioned_transaction wClient wEnv wJson wTx2 = .ok vt' ∧
      vt'.message = wTx2.message ∧
      vt'.signatures.length = wTx2.signatures.length ∧
      vt'.signatures.getD 1 [] = kpSign wWallet (encodeMessage wTx2.message) ∧
      ∀ i, i < wTx2.signatures.length → i ≠ 1 →
        vt'.signatures.getD i [] = wTx2.signatures.getD i [] :=
  sign_preserves_other_slots wClient wEnv wJson wTx2 wKeyBytes wWallet 1
    rfl rfl (by decide) (by decide)

theorem b64EncodeBytes_ne_nil (l : List Nat) (h : l ≠ []) : b64EncodeBytes l ≠ [] := by
  match l with
  | [] => exact absurd rfl h
  | [a] => simp [b64EncodeBytes]
  | [a, b] => simp [b64EncodeBytes]
  | a :: b :: c :: rest => simp [b64EncodeBytes]

theorem serialize_ne_empty (t : VersionedTransaction) :
    serialize_versioned_transaction t ≠ "" := by
  unfold serialize_versioned_transaction b64Encode
  intro hcontra
  have hdata : b64EncodeBytes (txToBytes t) = [] := by
    have h2 := congrArg String.data hcontra
    simpa using h2
  exact b64EncodeBytes_ne_nil _ (txToBytes_ne_nil t) hdata

/-- C3 (counterexample): the claim says the direct sign on a decoded
transaction missing the wallet key fails with `JupiterValidationError`; on this
concrete transaction `_sign_versioned_transaction` does fail, but not with a
`JupiterValidationError` — `list.index` raises a raw `ValueError` and nothing
in the method wraps it. -/
theorem sign_missing_key_counterexample :
    exceptOk (sign_versioned_transaction wClient wEnv wJson wTxNo) = false ∧
    failsWithValidation (sign_versioned_transaction wClient wEnv wJson wTxNo) = false := by
  exact ⟨by decide, by decide⟩

/-- C3 (amended): for a decoded transaction whose account keys do not contain
the derived public key, the direct `_sign_versioned_transaction` raises the
untyped `ValueError` from the `list.index` lookup, and the base64 compose path
(`_sign_base64_transaction`) converts that failure into a
`JupiterValidationError` — only the compose path yields the typed error. -/
theorem sign_missing_key_is_untyped_then_wrapped (c : CoreClient)
    (env : String → Option String) (jsonLoads : String → Except String Py)
    (vt : VersionedTransaction) (bs : List Nat) (w : Keypair)
    (hwf : WFTransaction vt)
    (hload : load_private_key_bytes c env jsonLoads = .ok bs)
    (hkp : keypairFromBytes bs = .ok w)
    (hidx : listIndex vt.message.account_keys w.pubkeyBytes = none) :
    sign_versioned_transaction c env jsonLoads vt =
      .error (.pyError ("ValueError") (b58Encode w.pubkeyBytes ++ " is not in list")) ∧
    failsWithValidation (sign_base64_transaction c env jsonLoads
      (.pstr (serialize_versioned_transaction vt))) = true := by
  have hsv : sign_versioned_transaction c env jsonLoads vt =
      .error (.pyError ("ValueError") (b58Encode w.pubkeyBytes ++ " is not in list")) := by
    simp only [sign_versioned_transaction, hload, hkp, hidx]
  refine ⟨hsv, ?_⟩
  have hb64 : pyB64decode (serialize_versioned_transaction vt) = .ok (txToBytes vt) := by
    unfold pyB64decode serialize_versioned_transaction b64Encode
    rw [show (String.mk (b64EncodeBytes (txToBytes vt))).data =
        b64EncodeBytes (txToBytes vt) from rfl,
      b64_roundtrip _ (txToBytes_bytes vt hwf)]
  have htruthy : (Py.pstr (serialize_versioned_transaction vt)).truthy = true := by
    simp [Py.truthy, serialize_ne_empty vt]
  have hempty : (txToBytes vt).isEmpty = false := by
    simpa [List.isEmpty_iff] using txToBytes_ne_nil vt
  simp only [sign_base64_transaction, htruthy, Bool.not_true, Bool.false_eq_true, if_false,
    hb64, hempty, tx_roundtrip vt hwf, hsv, OpError.isValidation]
  unfold signB64Rewrap
  split <;> rfl

theorem sign_missing_key_is_untyped_then_wrapped_witness :
    sign_versioned_transaction wClient wEnv wJson wTxNo =
      .error (.pyError ("ValueError") (b58Encode wWallet.pubkeyBytes ++ " is not in list")) ∧
    failsWithValidation (sign_base64_transaction wClient wEnv wJson
      (.pstr (serialize_versioned_transaction wTxNo))) = true :=
  sign_missing_key_is_untyped_then_wrapped wClient wEnv wJson wTxNo wKeyBytes wWallet
    (by decide) rfl rfl (by decide)

/-- C4: an order response that is not a dict, lacks `requestId`, lacks
`transaction`, or whose `transaction` value is empty or not a string makes
`order_and_execute` fail with `JupiterValidationError` without ever invoking
execute (the result does not depend on the execute function); a response with
`requestId` and a signable `transaction` string invokes execute exactly once,
with the `requestId` of the response and the re-encoded signed transaction. -/
theorem order_and_execute_validates_order_response (c : CoreClient)
    (env : String → Option String) (jsonLoads : String → Except String Py) :
    (∀ resp, badOrderResponse resp = true →
      ∃ m f, ∀ executeFn, order_and_execute c env jsonLoads (.ok resp) executeFn =
        .error (.validation m f)) ∧
    (∀ kvs rid ts vt executeFn,
      pyLookup kvs ("requestId") = some (.pstr rid) →
      pyLookup kvs ("transaction") = some (.pstr ts) →
      ts ≠ "" →
      sign_base64_transaction c env jsonLoads (.pstr ts) = .ok vt →
      order_and_execute c env jsonLoads (.ok (.pdict kvs)) executeFn =
        executeFn ⟨serialize_versioned_transaction vt, rid⟩) := by
  constructor
  · intro resp hbad
    cases resp with
    | pdict kvs =>
        simp only [badOrderResponse] at hbad
        by_cases h1 : pyHasKey kvs ("requestId")
        · by_cases h2 : pyHasKey kvs ("transaction")
          · have htd : (!((pyLookup kvs ("transaction")).getD Py.pnone).truthy ||
                !((pyLookup kvs ("transaction")).getD Py.pnone).isStr) = true := by
              simpa [h1, h2] using hbad
            refine ⟨"Order response contains invalid transaction data",
              some ("transaction"), fun fn => ?_⟩
            simp [order_and_execute, prepare_execute_request_from_order, h1, h2, htd]
          · refine ⟨"Order response missing required field: transaction",
              some ("transaction"), fun fn => ?_⟩
            simp [order_and_execute, prepare_execute_request_from_order, h1, h2]
        · refine ⟨"Order response missing required field: requestId",
            some ("requestId"), fun fn => ?_⟩
          simp [order_and_execute, prepare_execute_request_from_order, h1]
    | pnone =>
        exact ⟨"Invalid order response: expected dictionary", none, fun fn => by
          simp [order_and_execute, prepare_execute_request_from_order]⟩
    | pbool b =>
        exact ⟨"Invalid order response: expected dictionary", none, fun fn => by
          simp [order_and_execute, prepare_execute_request_from_order]⟩
    | pint n =>
        exact ⟨"Invalid order response: expected dictionary", none, fun fn => by
          simp [order_and_execute, prepare_execute_request_from_order]⟩
    | pstr s =>
        exact ⟨"Invalid order response: expected dictionary", none, fun fn => by
          simp [order_and_execute, prepare_execute_request_from_order]⟩
    | plist xs =>
        exact ⟨"Invalid order response: expected dictionary", none, fun fn => by
          simp [order_and_execute, prepare_execute_request_from_order]⟩
    | pother ty tr =>
        exact ⟨"Invalid order response: expected dictionary", none, fun fn => by
          simp [order_and_execute, prepare_execute_request_from_order]⟩
  · intro kvs rid ts vt executeFn hrid hts htsne hsigned
    have h1 : pyHasKey kvs ("requestId") = true := by simp [pyHasKey, hrid]
    have h2 : pyHasKey kvs ("transaction") = true := by simp [pyHasKey, hts]
    simp [order_and_execute, prepare_execute_request_from_order, h1, h2, hts, hrid,
      htsne, hsigned, mkUltraExecuteRequest, Py.truthy, Py.isStr]

set_option maxRecDepth 8000 in
theorem order_and_execute_validates_order_response_witness :
    order_and_execute wClient wEnv wJson
      (.ok (.pdict [("requestId", .pstr ("r1")),
        ("transaction", .pstr (serialize_versioned_transaction wTx2))]))
      (fun req => .ok (.pstr req.request_id)) = .ok (.pstr ("r1")) := by
  have h := (order_and_execute_validates_order_response wClient wEnv wJson).2
    [("requestId", .pstr ("r1")),
      ("transaction", .pstr (serialize_versioned_transaction wTx2))]
    ("r1") (serialize_versioned_transaction wTx2) wSigned2
    (fun req => .ok (.pstr req.request_id)) rfl rfl (by decide) rfl
  exact h

theorem load_private_key_error_shape (c : CoreClient) (env : String → Option String)
    (jsonLoads : String → Except String Py) (e : OpError)
    (he : load_private_key_bytes c env jsonLoads = .error e) : e.isValidation = true := by
  simp only [load_private_key_bytes] at he
  repeat' split at he
  all_goals
    first
      | exact (Except.error.inj he) ▸ rfl
      | exact Except.noConfusion he

/-- C7: `_load_private_key_bytes` returns the JSON-array bytes exactly when the
trimmed secret is bracketed and parses as a non-empty list of integers 0–255,
attempts base58 on any other trimmed text (succeeding exactly on non-empty
decodings), and every failure — absent or blank source, non-list, empty list,
out-of-range or non-integer entry, base58 failure or empty base58 decoding —
is a `JupiterValidationError`. -/
theorem load_private_key_matches_spec (c : CoreClient) (env : String → Option String)
    (jsonLoads : String → Except String Py) :
    (∀ bs, load_private_key_bytes c env jsonLoads = .ok bs ↔
      loadKeyOkSpec (env c.private_key_env_var) jsonLoads bs = true) ∧
    (∀ e, load_private_key_bytes c env jsonLoads = .error e → e.isValidation = true) := by
  refine ⟨?_, fun e he => load_private_key_error_shape c env jsonLoads e he⟩
  intro bs
  unfold load_private_key_bytes loadKeyOkSpec
  cases henv : env c.private_key_env_var with
  | none => simp
  | some s =>
      by_cases hs : s = ""
      · simp [hs]
      · by_cases ht : pyStrip s = ""
        · simp [hs, ht]
        · by_cases hbr : (startsWithChar (pyStrip s) ('[') && endsWithChar (pyStrip s) (']')) = true
          · cases hj : jsonLoads (pyStrip s) with
            | error e => simp [hs, ht, hbr, hj]
            | ok v =>
                cases v with
                | plist arr =>
                    by_cases harr : arr.isEmpty = true
                    · simp [hs, ht, hbr, hj, harr]
                    · have harr2 : arr.isEmpty = false := by
                        cases h : arr.isEmpty
                        · rfl
                        · exact absurd h harr
                      by_cases hall : (arr.all fun x => match x.intVal with
                          | some v => decide (0 ≤ v ∧ v ≤ 255)
                          | none => false) = true
                      · simp only [Bool.decide_and] at hall
                        simp [hs, ht, hbr, hj, harr2, hall, -List.all_eq_true]
                        try exact eq_comm
                      · simp only [Bool.decide_and] at hall
                        simp [hs, ht, hbr, hj, harr2, hall, -List.all_eq_true]
                | pnone => simp [hs, ht, hbr, hj]
                | pbool b => simp [hs, ht, hbr, hj]
                | pint n => simp [hs, ht, hbr, hj]
                | pstr t => simp [hs, ht, hbr, hj]
                | pdict kvs => simp [hs, ht, hbr, hj]
                | pother ty tr => simp [hs, ht, hbr, hj]
          · cases hb : b58decode (pyStrip s) with
            | ok decoded =>
                by_cases hd : decoded.isEmpty
                · simp [hs, ht, hbr, hb, hd]
                · simp [hs, ht, hbr, hb, hd, eq_comm]
            | error e => simp [hs, ht, hbr, hb]

theorem load_private_key_matches_spec_witness :
    load_private_key_bytes wClient wEnv wJson = .ok wKeyBytes ∧
    (OpError.validation ("Private key not found in environment variable " ++ "PRIVATE_KEY")
      (some ("PRIVATE_KEY"))).isValidation = true := by
  have h := load_private_key_matches_spec wClient wEnv wJson
  have h2 := load_private_key_matches_spec wClient (fun _ => none) wJson
  refine ⟨(h.1 wKeyBytes).mpr (by decide), ?_⟩
  exact h2.2 (.validation ("Private key not found in environment variable " ++ "PRIVATE_KEY")
    (some ("PRIVATE_KEY"))) rfl

/-- C10: a 2xx response whose `json()` accessor raises is classified as a
`JupiterNetworkError` wrapping the parse failure, not a validation error. -/
theorem malformed_success_body_is_network_error (r : HttpResponse) (e : String)
    (h2 : 200 ≤ r.status_code) (h3 : r.status_code < 300)
    (hjson : r.jsonResult = .error e) :
    handle_response r = .error (.network ("Network error occurred: " ++ e)) := by
  unfold handle_response
  rw [if_neg (by omega), hjson]

theorem malformed_success_body_is_network_error_witness :
    handle_response ⟨200, .error ("Expecting value: line 1 column 1"), []⟩ =
      .error (.network ("Network error occurred: " ++ "Expecting value: line 1 column 1")) :=
  malformed_success_body_is_network_error _ _ (by decide) (by decide) rfl

end PyJupiter
